import Mathlib

/-!
Verification development for `src/info/seeing_stars_to_txt.py`.

The program is a single-pass pipeline: fetch each configured URL, normalise
the page text into whitespace-collapsed lines, collect candidate encyclopedia
links, keep the lines containing a date-like substring, format one record per
kept line, and write one report file at the end.

Shallow embedding conventions:
* a page's text (the result of the external HTML-parsing library, after the
  line-break substitution) and its anchor `href` list are the inputs of the
  model; the HTML library itself is outside the repository;
* text is modelled as `List Char` (Python strings are sequences of code
  points, and `len` counts code points);
* the Python regex character classes `\s`, `\d`, `\w` are modelled on the
  ASCII range, matching their behaviour on the ASCII inputs the program
  manipulates;
* fallible steps are modelled in `Except`; in particular the name-splitting
  regular expression of the source is syntactically invalid (an unterminated
  character set), so the record formatter is modelled as raising.
-/

namespace SeeingStars

/-- Python regex `\s` (whitespace class) on the ASCII range: space, tab,
newline, carriage return, vertical tab, form feed. -/
def isPySpace (c : Char) : Bool :=
  c = ' ' || c = '\t' || c = '\n' || c = '\r' || c = '\x0b' || c = '\x0c'

/-- Python regex `\w` (word character) on the ASCII range: letters, digits,
underscore.  Used for the `\b` word-boundary assertions of `DATE_PAT`. -/
def isWordChar (c : Char) : Bool :=
  c.isAlpha || c.isDigit || c = '_'

/-- Auxiliary for `collapseRuns`: the flag records whether the previous input
character belonged to a run matching `p` (in which case the run's replacement
character has already been emitted). -/
def collapseRunsAux (p : Char → Bool) (r : Char) : Bool → List Char → List Char
  | _, [] => []
  | inRun, c :: cs =>
    if p c then
      if inRun then collapseRunsAux p r true cs
      else r :: collapseRunsAux p r true cs
    else c :: collapseRunsAux p r false cs

/-- Model of Python `re.sub(P+, r, s)` for a character class `P`: every
maximal run of characters matching `p` is replaced by the single character
`r`.  Instantiated with `\s+ -> " "` (source line 59) and
`[^a-z0-9]+ -> "_"` (source line 124). -/
def collapseRuns (p : Char → Bool) (r : Char) (l : List Char) : List Char :=
  collapseRunsAux p r false l

/-- Model of Python `str.strip` with the character set `p`: drop matching
characters from both ends. -/
def pyStrip (p : Char → Bool) (l : List Char) : List Char :=
  List.rdropWhile p (List.dropWhile p l)

/-- Source `clean` (line 58-59): `re.sub(r"\s+", " ", s).strip()`. -/
def cleanL (l : List Char) : List Char :=
  pyStrip isPySpace (collapseRuns isPySpace ' ' l)

/-- Model of Python `s.split("\n")`: split at every newline, keeping empty
segments (`"".split("\n") == [""]`). -/
def splitOnNL : List Char → List (List Char)
  | [] => [[]]
  | c :: cs =>
    match splitOnNL cs with
    | [] => [[]]
    | h :: t => if c = '\n' then [] :: h :: t else (c :: h) :: t

/-- Source line 91: `[clean(x) for x in page_text.split("\n") if clean(x)]`
(a cleaned line is kept iff it is non-empty, Python string truthiness). -/
def normalizeL (text : List Char) : List (List Char) :=
  ((splitOnNL text).map cleanL).filter (fun l => !l.isEmpty)

/-! ### The date pattern `DATE_PAT` (source lines 40-44)

`DATE_PAT.search` succeeds iff some position of the line starts a match of
one of the three alternatives:
month-day-year, `\d{1,2}/\d{1,2}/\d{2,4}`, or `\b(19\d{2}|20\d{2})\b`,
case-insensitively.  The model enumerates start positions explicitly; each
alternative matcher decides whether a match of that alternative starts at
the given suffix (with the preceding character supplied for `\b`). -/

/-- All strings generated by the month alternation of `MONTH_RE`
(source line 40), lowercased: each month's full name and its accepted
abbreviations (`Sep(?:t(?:ember)?)?` accepts `sep`, `sept`, `september`). -/
def monthNames : List (List Char) :=
  ["january", "jan", "february", "feb", "march", "mar", "april", "apr",
   "may", "june", "jun", "july", "jul", "august", "aug",
   "september", "sept", "sep", "october", "oct",
   "november", "nov", "december", "dec"].map String.data

/-- Case-insensitive literal match: if the subject `l` starts with the
(lowercase) pattern `pat` up to ASCII lowercasing, return the rest of `l`. -/
def dropCI : List Char → List Char → Option (List Char)
  | [], l => some l
  | _ :: _, [] => none
  | p :: ps, c :: cs => if Char.toLower c = p then dropCI ps cs else none

/-- Regex `\s+` followed by a character that is not in `\s` (true at every
use site in `DATE_PAT`, where a digit follows): consume one or more
whitespace characters. -/
def eatSpaces1 : List Char → Option (List Char)
  | c :: cs => if isPySpace c then some (cs.dropWhile isPySpace) else none
  | [] => none

/-- Regex `\d{1,2}` immediately followed by the literal `sep` (a
non-digit): consume one or two digits and the separator.  Backtracking of
`\d{1,2}` is reflected by trying the one-digit and two-digit readings. -/
def d12Then (sep : Char) (l : List Char) : Option (List Char) :=
  match l with
  | a :: b :: rest =>
    if a.isDigit then
      if b = sep then some rest
      else if b.isDigit then
        match rest with
        | c :: rest2 => if c = sep then some rest2 else none
        | [] => none
      else none
    else none
  | _ => none

/-- Regex `\d{4}` with no trailing requirement: the suffix starts with four
digits. -/
def hasFourDigits (l : List Char) : Bool :=
  match l with
  | a :: b :: c :: d :: _ => a.isDigit && b.isDigit && c.isDigit && d.isDigit
  | _ => false

/-- Tail of the first `DATE_PAT` alternative after the month name:
`\s+\d{1,2},\s+\d{4}`. -/
def monthTail (l : List Char) : Bool :=
  match eatSpaces1 l with
  | none => false
  | some l1 =>
    match d12Then ',' l1 with
    | none => false
    | some l2 =>
      match eatSpaces1 l2 with
      | none => false
      | some l3 => hasFourDigits l3

/-- First `DATE_PAT` alternative, starting at `l`:
`MONTH_RE\s+\d{1,2},\s+\d{4}` (case-insensitive). -/
def monthAt (l : List Char) : Bool :=
  monthNames.any (fun m =>
    match dropCI m l with
    | some rest => monthTail rest
    | none => false)

/-- Second `DATE_PAT` alternative, starting at `l`:
`\d{1,2}/\d{1,2}/\d{2,4}` (a match needs at least two digits after the
second slash; the upper bounds impose no trailing requirement). -/
def slashAt (l : List Char) : Bool :=
  match d12Then '/' l with
  | none => false
  | some l1 =>
    match d12Then '/' l1 with
    | none => false
    | some l2 =>
      match l2 with
      | a :: b :: _ => a.isDigit && b.isDigit
      | _ => false

/-- `\b` before the match: start of string, or previous character not a
word character. -/
def boundaryBefore : Option Char → Bool
  | none => true
  | some c => !isWordChar c

/-- Third `DATE_PAT` alternative, starting at `l` with preceding character
`prev`: `\b(19\d{2}|20\d{2})\b`. -/
def yearAt (prev : Option Char) (l : List Char) : Bool :=
  match l with
  | a :: b :: c :: d :: rest =>
    boundaryBefore prev &&
    ((a = '1' && b = '9') || (a = '2' && b = '0')) &&
    c.isDigit && d.isDigit &&
    (match rest with | [] => true | e :: _ => !isWordChar e)
  | _ => false

/-- A `DATE_PAT` match starts at suffix `l`, whose preceding character is
`prev`. -/
def datePatAt (prev : Option Char) (l : List Char) : Bool :=
  monthAt l || slashAt l || yearAt prev l

/-- Scan of all start positions (no alternative matches the empty suffix,
so the final position can be skipped). -/
def datePatSearchAux (prev : Option Char) : List Char → Bool
  | [] => false
  | c :: cs => datePatAt prev (c :: cs) || datePatSearchAux (some c) cs

/-- Model of `DATE_PAT.search(line) is not None` (source lines 41-44). -/
def datePatSearch (l : List Char) : Bool :=
  datePatSearchAux none l

/-- Source lines 102-106: a line is kept iff its length is at least 10 and
`DATE_PAT.search` succeeds. -/
def keepLine (ln : List Char) : Bool :=
  if ln.length < 10 then false else datePatSearch ln

/-- The entry filter over the normalised lines (source lines 100-106). -/
def entryFilter (lines : List (List Char)) : List (List Char) :=
  lines.filter keepLine

/-! ### Link collection and link association (source lines 45, 94-98, 122-128) -/

/-- `l` starts with `pat` (exact characters). -/
def startsWithL : List Char → List Char → Bool
  | [], _ => true
  | _ :: _, [] => false
  | a :: as, b :: bs => (a = b) && startsWithL as bs

/-- Model of Python `needle in hay` (substring containment). -/
def containsL (needle : List Char) : List Char → Bool
  | [] => needle.isEmpty
  | c :: cs => startsWithL needle (c :: cs) || containsL needle cs

/-- Model of `WIKI_PAT.search(href)` (source line 45):
`wikipedia\.org/wiki/`, case-insensitive, at any position. -/
def wikiPatMatches (href : List Char) : Bool :=
  containsL "wikipedia.org/wiki/".data (href.map Char.toLower)

/-- Source lines 94-98: keep, in document order, the hrefs matched by
`WIKI_PAT` (the input list holds each anchor's `href` attribute, with the
empty string standing for an absent attribute, as in `a.get("href") or ""`). -/
def wikiLinksOf (hrefs : List (List Char)) : List (List Char) :=
  hrefs.filter wikiPatMatches

/-- The character class `[a-z0-9]` of source line 124. -/
def isLowerAlnum (c : Char) : Bool :=
  ('a' ≤ c && c ≤ 'z') || c.isDigit

/-- Source line 124: `re.sub(r"[^a-z0-9]+", "_", name_guess.lower()).strip("_")`. -/
def tokenOf (name : List Char) : List Char :=
  pyStrip (fun c => c = '_')
    (collapseRuns (fun c => !isLowerAlnum c) '_' (name.map Char.toLower))

/-- Source lines 122-128: the first collected link whose lowercase form
contains the (non-empty) token; the empty string when the token is empty or
no link contains it. -/
def wikiGuess (nameGuess : List Char) (links : List (List Char)) : List Char :=
  let token := tokenOf nameGuess
  match links.find? (fun w => !token.isEmpty && containsL token (w.map Char.toLower)) with
  | some w => w
  | none => []

/-! ### The name-splitting regular expression (source line 120)

Source line 120 is `re.split(r"[-–—]|\\(|\\[", ln, maxsplit=1)`.  In the raw
string, `\\(` denotes the two pattern characters backslash-`(` — an escaped
backslash followed by a group opener — and `\\[` denotes backslash-`[`,
an escaped backslash followed by a character-set opener that is never
closed.  Compiling this pattern raises
`re.error: unterminated character set at position 12`, so the call raises on
every kept line.  The scanner below models the bracket discipline of Python
regex pattern compilation: escapes consume the next character, `[...]`
classes (with the literal-`]` rules after `[` and `[^`) must be closed, and
group parentheses must balance. -/

/-- Bracket/escape scanner for Python regex pattern syntax.  `depth` counts
open groups; `cls` is `0` outside a character class, `2` immediately after
`[`, `3` immediately after `[^`, and `1` inside a class body.  Returns
`true` iff the pattern is well formed (every class and group closed, no
dangling escape, no unbalanced `)`). -/
def patScanAux : List Char → Nat → Nat → Bool
  | [], depth, cls => depth == 0 && cls == 0
  | '\\' :: rest, depth, cls =>
    match rest with
    | [] => false
    | _ :: rest2 => patScanAux rest2 depth (if cls == 0 then 0 else 1)
  | c :: rest, depth, 0 =>
    if c = '[' then patScanAux rest depth 2
    else if c = '(' then patScanAux rest (depth + 1) 0
    else if c = ')' then (if depth == 0 then false else patScanAux rest (depth - 1) 0)
    else patScanAux rest depth 0
  | c :: rest, depth, 1 =>
    if c = ']' then patScanAux rest depth 0 else patScanAux rest depth 1
  | c :: rest, depth, 2 =>
    if c = '^' then patScanAux rest depth 3 else patScanAux rest depth 1
  | _ :: rest, depth, _ => patScanAux rest depth 1

/-- A Python regex pattern compiles without a syntax error. -/
def patternOK (pat : List Char) : Bool :=
  patScanAux pat 0 0

/-- The exact pattern characters of source line 120:
`[-–—]|\\(|\\[` (thirteen characters; positions 6-7 and 10-11 are the two
escaped backslashes). -/
def nameSplitPat : List Char :=
  "[-–—]|\\\\(|\\\\[".data

/-- The separator characters the source's comment ("name often at start
before dash/paren") and the surrounding docstring intend: dash, en dash,
em dash, `(`, `[`. -/
def isSeparator (c : Char) : Bool :=
  c = '-' || c = '–' || c = '—' || c = '(' || c = '['

/-- The text before the first separator character (the whole line when no
separator occurs). -/
def takeBeforeSeparator : List Char → List Char
  | [] => []
  | c :: cs => if isSeparator c then [] else c :: takeBeforeSeparator cs

/-- Source line 120: `clean(re.split(r"[-–—]|\\(|\\[", ln, maxsplit=1)[0])`.
Python compiles the pattern at the call; compilation of `nameSplitPat`
fails, so the call raises.  The success branch — reachable only for a well
formed pattern, hence never here — is given the truncation behaviour the
source comment intends. -/
def nameGuessE (ln : List Char) : Except String (List Char) :=
  if patternOK nameSplitPat then
    .ok (cleanL (takeBeforeSeparator ln))
  else
    .error "re.error: unterminated character set"

/-- One formatted record (source lines 117-133). -/
structure Record where
  nameGuess : List Char
  summary : List Char
  wikipedia : List Char
  deriving DecidableEq, Repr

/-- Source lines 117-128: the record for one kept line; raises when the
name-splitting regex fails to compile. -/
def formatRecord (ln : List Char) (links : List (List Char)) :
    Except String Record := do
  let n ← nameGuessE ln
  pure { nameGuess := n, summary := ln, wikipedia := wikiGuess n links }

/-- Source lines 130-133: the four report lines of one record. -/
def recordLines (r : Record) : List String :=
  ["- Name: " ++ r.nameGuess.asString,
   "  Summary line: " ++ r.summary.asString,
   "  Wikipedia: " ++ r.wikipedia.asString,
   ""]

/-! ### The per-source pipeline and the report (source lines 61-140)

A fetched page is taken at the boundary of the external HTML library: its
visible text after `<br>` → newline substitution (the argument of
`page_text.split("\n")`), and the `href` of each anchor in document order. -/

/-- A successfully fetched and parsed page. -/
structure Page where
  text : List Char
  hrefs : List (List Char)

/-- `"=" * 90` (source lines 72 and 74). -/
def sepLine : String :=
  String.mk (List.replicate 90 '=')

/-- Source lines 72-74: the three lines naming a source. -/
def sourceHeader (url : String) : List String :=
  [sepLine, "SOURCE: " ++ url, sepLine]

/-- Source lines 76-81: the report block of a source whose fetch raised. -/
def errorBlock (url : String) (e : String) : List String :=
  sourceHeader url ++ ["[ERROR] Could not fetch page: " ++ e, ""]

/-- Source lines 108-114: the report block of a fetched source with no kept
lines. -/
def debugBlock (url : String) (lines : List (List Char)) : List String :=
  sourceHeader url ++
  ("[DEBUG] No date-like lines found. First 200 raw lines from page:" ::
    (lines.take 200).map (fun ln => "- RAW: " ++ ln.asString)) ++ [""]

/-- Source lines 83-135: process one successfully fetched page, returning
its report lines and its contribution to the entry counter; raises when the
record formatter raises. -/
def processPage (url : String) (page : Page) : Except String (List String × Nat) :=
  let lines := normalizeL page.text
  let links := wikiLinksOf page.hrefs
  let kept := entryFilter lines
  if kept.isEmpty then
    .ok (debugBlock url lines, 0)
  else do
    let cards ← kept.mapM (fun ln => (fun r => recordLines r) <$> formatRecord ln links)
    pure (sourceHeader url ++ cards.flatten ++ [""], kept.length)

/-- Source lines 71-135: one iteration of the URL loop.  A fetch failure is
caught and turned into its error block; any other failure propagates. -/
def processSource (url : String) (r : Except String Page) :
    Except String (List String × Nat) :=
  match r with
  | .error e => .ok (errorBlock url e, 0)
  | .ok page => processPage url page

/-- The whole URL loop: concatenated report bodies and the final entry
counter. -/
def runBody : List (String × Except String Page) → Except String (List String × Nat)
  | [] => .ok ([], 0)
  | (url, r) :: rest => do
    let (blk, n) ← processSource url r
    let (blks, m) ← runBody rest
    pure (blk ++ blks, n + m)

/-- Source lines 63-67: the report header. -/
def reportHeader (timestamp : String) : List String :=
  ["Seeing-Stars Summary Extract",
   "Generated: " ++ timestamp,
   "Requested fields: Name | Date of death | Location | Cause | Wikipedia (if available)",
   "NOTE: This is a loose extraction. Some lines may need manual cleanup.",
   ""]

/-- The full report: header followed by the loop's output. -/
def render (srcs : List (String × Except String Page)) (timestamp : String) :
    Except String (List String) :=
  (runBody srcs).map (fun p => reportHeader timestamp ++ p.1)

/-- Source line 34. -/
def OUTFILE : String :=
  "seeing-stars-summaries.txt"

/-- Source line 138: `"\n".join(out)`. -/
def fileContent (ls : List String) : String :=
  String.intercalate "\n" ls

/-- The externally visible actions of a run: one network request per URL
reached, one file write, one console line. -/
inductive Event where
  | fetch (url : String)
  | writeFile (path : String) (content : String)
  | printLine (s : String)
  deriving DecidableEq

/-- The URL loop as a trace: the fetch of each source happens when the loop
reaches it; an unhandled failure while processing a source aborts the loop
there. -/
def runTrace : List (String × Except String Page) →
    List Event × Except String (List String × Nat)
  | [] => ([], .ok ([], 0))
  | (url, r) :: rest =>
    match processSource url r with
    | .error e => ([Event.fetch url], .error e)
    | .ok (blk, n) =>
      let (evs, res) := runTrace rest
      (Event.fetch url :: evs, res.map (fun p => (blk ++ p.1, n + p.2)))

/-- Source lines 61-140 as a trace: the loop, then — only when the loop
completed — the single `open`/`write` of the output file (lines 137-138)
and the console line (line 140). -/
def mainTrace (srcs : List (String × Except String Page)) (timestamp : String) :
    List Event × Except String Unit :=
  match runTrace srcs with
  | (evs, .error e) => (evs, .error e)
  | (evs, .ok (body, n)) =>
    (evs ++ [Event.writeFile OUTFILE (fileContent (reportHeader timestamp ++ body)),
             Event.printLine ("Done. Wrote " ++ toString n ++ " entry lines to " ++ OUTFILE)],
     .ok ())

/-- An event is a file write. -/
def isWriteEvent : Event → Bool
  | .writeFile _ _ => true
  | _ => false

/-- A report line opening an entry block (source line 130). -/
def lineIsEntry (s : String) : Bool :=
  startsWithL "- Name: ".data s.data

/-- A report line reporting a fetch failure (source line 79). -/
def lineIsError (s : String) : Bool :=
  startsWithL "[ERROR]".data s.data

/-- A raw-line diagnostic report line (source line 112). -/
def lineIsRaw (s : String) : Bool :=
  startsWithL "- RAW: ".data s.data

/-! ### Response-body decoding (source lines 47-56)

`fetch_html` decodes `r.content` with the declared or sniffed encoding and
`errors="replace"`; any exception of that attempt (including a
`LookupError` for an unknown encoding name) is caught, and the body is
decoded as latin-1 with `errors="replace"` instead.  The primary decode —
standard-library behaviour parametrised by the encoding name — is modelled
as an arbitrary fallible function; latin-1 maps every byte `b` to the code
point `U+00b`, so it is total by construction. -/

/-- Total latin-1 decoding: byte value = code point. -/
def latin1Decode (bs : List (Fin 256)) : List Char :=
  bs.map (fun b => Char.ofNat b.val)

/-- Source lines 53-56: try the primary decoding; on any failure, decode as
latin-1. -/
def decodeBody (primary : List (Fin 256) → Except String (List Char))
    (bs : List (Fin 256)) : Except String (List Char) :=
  match primary bs with
  | .ok s => .ok s
  | .error _ => .ok (latin1Decode bs)

/-! ## Theorems -/

theorem keepLine_iff (ln : List Char) :
    keepLine ln = true ↔ 10 ≤ ln.length ∧ datePatSearch ln = true := by
  unfold keepLine
  by_cases h : ln.length < 10
  · simp only [if_pos h, Bool.false_eq_true, false_iff]
    intro hc
    omega
  · have h10 : 10 ≤ ln.length := Nat.le_of_not_lt h
    simp [if_neg h, h10]

/-- C3: the entry filter keeps a normalised line iff its length is at least
10 and `DATE_PAT.search` succeeds on it; kept lines form an order-preserving
unmodified sublist; standalone `1899` does not match the date pattern while
standalone `1900` and `2099` do, and month matching is case-insensitive. -/
theorem entryFilter_spec :
    (∀ lines ln, ln ∈ entryFilter lines ↔
        ln ∈ lines ∧ 10 ≤ ln.length ∧ datePatSearch ln = true)
    ∧ (∀ lines, List.Sublist (entryFilter lines) lines)
    ∧ datePatSearch "abcd efg 1899".data = false
    ∧ datePatSearch "abcd efg 1900".data = true
    ∧ datePatSearch "abcd efg 2099".data = true
    ∧ datePatSearch "MARCH 4, 1977 x".data = true
    ∧ entryFilter ["abcd efg 1899".data, "abcd efg 1900".data, "abcd efg 2099".data]
        = ["abcd efg 1900".data, "abcd efg 2099".data] := by
  refine ⟨?_, fun lines => List.filter_sublist _, rfl, rfl, rfl, rfl, rfl⟩
  intro lines ln
  simp [entryFilter, List.mem_filter, keepLine_iff, and_assoc]

/-- C1 (code bug): the name-splitting pattern of source line 120 is
syntactically invalid (its final `[`, written `\\[` in a raw string, opens a
character set that is never closed), so for a kept line — here the claim's
own example, which the entry filter keeps — `re.split` raises instead of
truncating the line at its first separator. -/
theorem nameGuess_raises :
    patternOK nameSplitPat = false
    ∧ keepLine "Jane Q. Public - March 4, 1977, Ohio".data = true
    ∧ nameGuessE "Jane Q. Public - March 4, 1977, Ohio".data
        = Except.error "re.error: unterminated character set" :=
  ⟨rfl, rfl, rfl⟩

/-- C2 (code bug): the entry formatter is not total — for every kept line
and every link collection it raises, because compiling the name-splitting
pattern fails before any field is produced. -/
theorem formatRecord_raises (ln : List Char) (links : List (List Char)) :
    formatRecord ln links = Except.error "re.error: unterminated character set" := rfl

/-- C8: decoding a fetched body never fails — the primary decoding (an
arbitrary fallible function covering any declared or sniffed encoding name)
is used when it succeeds, any failure falls back to latin-1, and latin-1
decodes every byte. -/
theorem decodeBody_never_fails
    (primary : List (Fin 256) → Except String (List Char)) (bs : List (Fin 256)) :
    (∃ s, decodeBody primary bs = Except.ok s)
    ∧ (∀ s, primary bs = Except.ok s → decodeBody primary bs = Except.ok s)
    ∧ (∀ e, primary bs = Except.error e →
        decodeBody primary bs = Except.ok (latin1Decode bs))
    ∧ (latin1Decode bs).length = bs.length := by
  refine ⟨?_, ?_, ?_, by simp [latin1Decode]⟩
  · cases h : primary bs with
    | ok s => exact ⟨s, by simp [decodeBody, h]⟩
    | error e => exact ⟨latin1Decode bs, by simp [decodeBody, h]⟩
  · intro s h
    simp [decodeBody, h]
  · intro e h
    simp [decodeBody, h]

theorem decodeBody_never_fails_witness :
    ((fun _ : List (Fin 256) => (Except.error "LookupError" : Except String (List Char)))
        [255] = Except.error "LookupError")
    ∧ decodeBody (fun _ => Except.error "LookupError") [255]
        = Except.ok (latin1Decode [255]) :=
  ⟨rfl, (decodeBody_never_fails _ [255]).2.2.1 "LookupError" rfl⟩

/-! ### Line-classification facts for the report blocks -/

theorem startsWithL_append_eq (p : List Char) :
    ∀ l m : List Char, p.length ≤ l.length →
      startsWithL p (l ++ m) = startsWithL p l := by
  induction p with
  | nil => intro l m _; rfl
  | cons a as ih =>
    intro l m hlen
    cases l with
    | nil => simp at hlen
    | cons b bs =>
      show (decide (a = b) && startsWithL as (bs ++ m))
          = (decide (a = b) && startsWithL as bs)
      rw [ih bs m (by simp only [List.length_cons] at hlen; omega)]

theorem lineIsError_sep : lineIsError sepLine = false := rfl

theorem lineIsError_blank : lineIsError "" = false := rfl

theorem lineIsError_src (url : String) : lineIsError ("SOURCE: " ++ url) = false := rfl

theorem lineIsError_err (e : String) :
    lineIsError ("[ERROR] Could not fetch page: " ++ e) = true := rfl

theorem lineIsEntry_sep : lineIsEntry sepLine = false := rfl

theorem lineIsEntry_blank : lineIsEntry "" = false := rfl

theorem lineIsEntry_debug :
    lineIsEntry "[DEBUG] No date-like lines found. First 200 raw lines from page:"
      = false := rfl

theorem lineIsEntry_src (url : String) : lineIsEntry ("SOURCE: " ++ url) = false := rfl

theorem lineIsEntry_err (e : String) :
    lineIsEntry ("[ERROR] Could not fetch page: " ++ e) = false := rfl

theorem lineIsEntry_raw (x : String) : lineIsEntry ("- RAW: " ++ x) = false := rfl

theorem lineIsRaw_sep : lineIsRaw sepLine = false := rfl

theorem lineIsRaw_blank : lineIsRaw "" = false := rfl

theorem lineIsRaw_debug :
    lineIsRaw "[DEBUG] No date-like lines found. First 200 raw lines from page:"
      = false := rfl

theorem lineIsRaw_src (url : String) : lineIsRaw ("SOURCE: " ++ url) = false := rfl

theorem lineIsRaw_raw (x : String) : lineIsRaw ("- RAW: " ++ x) = true := rfl

/-- C4: a failed fetch contributes exactly its error block — one `[ERROR]`
line embedding the failure reason at index 3, followed by the blank line at
index 4, no entry lines, zero entries — and the loop continues with the
remaining URLs, the failure never propagating. -/
theorem fetchFailure_isolated (url e : String)
    (rest : List (String × Except String Page)) :
    processSource url (Except.error e) = Except.ok (errorBlock url e, 0)
    ∧ ((errorBlock url e).filter lineIsError).length = 1
    ∧ (errorBlock url e).filter lineIsEntry = []
    ∧ (errorBlock url e)[3]? = some ("[ERROR] Could not fetch page: " ++ e)
    ∧ (errorBlock url e)[4]? = some ""
    ∧ (errorBlock url e).length = 5
    ∧ runBody ((url, Except.error e) :: rest)
        = (runBody rest).map (fun p => (errorBlock url e ++ p.1, p.2)) := by
  refine ⟨rfl, ?_, ?_, rfl, rfl, rfl, ?_⟩
  · show (List.filter lineIsError
      [sepLine, "SOURCE: " ++ url, sepLine,
       "[ERROR] Could not fetch page: " ++ e, ""]).length = 1
    simp [List.filter_cons, lineIsError_sep, lineIsError_src, lineIsError_err,
      lineIsError_blank]
  · show List.filter lineIsEntry
      [sepLine, "SOURCE: " ++ url, sepLine,
       "[ERROR] Could not fetch page: " ++ e, ""] = []
    simp [List.filter_cons, lineIsEntry_sep, lineIsEntry_src, lineIsEntry_err,
      lineIsEntry_blank]
  · cases h : runBody rest with
    | ok p =>
      obtain ⟨blks, m⟩ := p
      simp [runBody, show processSource url (Except.error e)
        = Except.ok (errorBlock url e, 0) from rfl, h, Except.map,
        Bind.bind, Except.bind, Pure.pure, Except.pure]
    | error err =>
      simp [runBody, show processSource url (Except.error e)
        = Except.ok (errorBlock url e, 0) from rfl, h, Except.map,
        Bind.bind, Except.bind]

/-- C7: a fetched page on which the entry filter keeps nothing contributes
its `[DEBUG]` block (at most the first 200 raw normalised lines, each
prefixed `- RAW:`), no entry lines and zero entries, and the loop continues
with the remaining URLs. -/
theorem emptyKept_debug (url : String) (page : Page)
    (rest : List (String × Except String Page))
    (h : entryFilter (normalizeL page.text) = []) :
    processSource url (Except.ok page)
        = Except.ok (debugBlock url (normalizeL page.text), 0)
    ∧ ((debugBlock url (normalizeL page.text)).filter lineIsRaw).length ≤ 200
    ∧ (debugBlock url (normalizeL page.text)).filter lineIsEntry = []
    ∧ (debugBlock url (normalizeL page.text))[3]?
        = some "[DEBUG] No date-like lines found. First 200 raw lines from page:"
    ∧ runBody ((url, Except.ok page) :: rest)
        = (runBody rest).map
            (fun p => (debugBlock url (normalizeL page.text) ++ p.1, p.2)) := by
  have hps : processSource url (Except.ok page)
      = Except.ok (debugBlock url (normalizeL page.text), 0) := by
    simp [processSource, processPage, h]
  have hblock : debugBlock url (normalizeL page.text)
      = sepLine :: ("SOURCE: " ++ url) :: sepLine ::
        "[DEBUG] No date-like lines found. First 200 raw lines from page:" ::
        (((normalizeL page.text).take 200).map (fun ln => "- RAW: " ++ ln.asString)
          ++ [""]) := rfl
  refine ⟨hps, ?_, ?_, by rw [hblock]; simp, ?_⟩
  · have hmapped : List.filter lineIsRaw
        (((normalizeL page.text).take 200).map (fun ln => "- RAW: " ++ ln.asString))
        = ((normalizeL page.text).take 200).map (fun ln => "- RAW: " ++ ln.asString) :=
      List.filter_eq_self.mpr (by
        intro a ha
        obtain ⟨x, hx, rfl⟩ := List.mem_map.mp ha
        simp [lineIsRaw_raw])
    rw [hblock]
    simp only [List.filter_cons, lineIsRaw_sep, lineIsRaw_src, lineIsRaw_debug,
      List.filter_append, hmapped]
    simp only [Bool.false_eq_true, if_false]
    simp [List.length_take, lineIsRaw_blank]
  · apply List.filter_eq_nil_iff.mpr
    intro a ha
    rw [hblock] at ha
    simp only [List.mem_cons, List.mem_append, List.mem_map,
      List.mem_singleton, List.not_mem_nil, or_false] at ha
    obtain rfl | rfl | rfl | rfl | ⟨x, hx, rfl⟩ | rfl := ha <;>
      simp [lineIsEntry_sep, lineIsEntry_src, lineIsEntry_debug, lineIsEntry_raw,
        lineIsEntry_blank]
  · cases hrb : runBody rest with
    | ok p =>
      obtain ⟨blks, m⟩ := p
      simp [runBody, hps, hrb, Except.map, Bind.bind, Except.bind,
        Pure.pure, Except.pure]
    | error err =>
      simp [runBody, hps, hrb, Except.map, Bind.bind, Except.bind]

theorem emptyKept_debug_witness :
    entryFilter (normalizeL (Page.mk "hi".data []).text) = []
    ∧ (processSource "u" (Except.ok (Page.mk "hi".data []))
        = Except.ok (debugBlock "u" (normalizeL (Page.mk "hi".data []).text), 0)
      ∧ ((debugBlock "u" (normalizeL (Page.mk "hi".data []).text)).filter
          lineIsRaw).length ≤ 200
      ∧ (debugBlock "u" (normalizeL (Page.mk "hi".data []).text)).filter
          lineIsEntry = []
      ∧ (debugBlock "u" (normalizeL (Page.mk "hi".data []).text))[3]?
          = some "[DEBUG] No date-like lines found. First 200 raw lines from page:"
      ∧ runBody [("u", Except.ok (Page.mk "hi".data []))]
          = (runBody []).map
              (fun p => (debugBlock "u" (normalizeL (Page.mk "hi".data []).text)
                ++ p.1, p.2))) :=
  ⟨rfl, emptyKept_debug "u" (Page.mk "hi".data []) [] rfl⟩

/-- C9: the post-fetch pipeline is deterministic — two renderings of the
same fetched content differ at most in the `Generated:` line (index 1 of
the report). -/
theorem render_deterministic (srcs : List (String × Except String Page))
    (t₁ t₂ : String) (l₁ l₂ : List String)
    (h₁ : render srcs t₁ = Except.ok l₁) (h₂ : render srcs t₂ = Except.ok l₂) :
    l₁.length = l₂.length ∧ ∀ i, i ≠ 1 → l₁[i]? = l₂[i]? := by
  cases hrb : runBody srcs with
  | error e => simp [render, hrb, Except.map] at h₁
  | ok p =>
    have e₁ : reportHeader t₁ ++ p.1 = l₁ := by
      simpa [render, hrb, Except.map] using h₁
    have e₂ : reportHeader t₂ ++ p.1 = l₂ := by
      simpa [render, hrb, Except.map] using h₂
    subst e₁
    subst e₂
    constructor
    · simp [reportHeader]
    · intro i hi
      rcases Nat.lt_or_ge i 5 with h5 | h5
      · rw [List.getElem?_append_left (by simp [reportHeader]; omega),
          List.getElem?_append_left (by simp [reportHeader]; omega)]
        interval_cases i <;> simp_all [reportHeader]
      · rw [List.getElem?_append_right (by simp [reportHeader]; omega),
          List.getElem?_append_right (by simp [reportHeader]; omega)]
        simp [reportHeader]

theorem render_deterministic_witness :
    render [("u", Except.error "x")] "A"
        = Except.ok (reportHeader "A" ++ (errorBlock "u" "x" ++ []))
    ∧ render [("u", Except.error "x")] "B"
        = Except.ok (reportHeader "B" ++ (errorBlock "u" "x" ++ []))
    ∧ ((reportHeader "A" ++ (errorBlock "u" "x" ++ [])).length
        = (reportHeader "B" ++ (errorBlock "u" "x" ++ [])).length
      ∧ ∀ i, i ≠ 1 → (reportHeader "A" ++ (errorBlock "u" "x" ++ []))[i]?
          = (reportHeader "B" ++ (errorBlock "u" "x" ++ []))[i]?) :=
  ⟨rfl, rfl, render_deterministic [("u", Except.error "x")] "A" "B" _ _ rfl rfl⟩

/-! ### The write happens once, after the loop (C10) -/

theorem runTrace_no_writes (srcs : List (String × Except String Page)) :
    (runTrace srcs).1.filter isWriteEvent = [] := by
  induction srcs with
  | nil => rfl
  | cons s rest ih =>
    obtain ⟨url, r⟩ := s
    cases hps : processSource url r with
    | error e => simp [runTrace, hps, isWriteEvent]
    | ok p =>
      obtain ⟨blk, n⟩ := p
      rcases hrt : runTrace rest with ⟨evs, res⟩
      rw [hrt] at ih
      simp [runTrace, hps, hrt, isWriteEvent, ih]

theorem runTrace_events_of_ok (srcs : List (String × Except String Page)) :
    ∀ x, (runTrace srcs).2 = Except.ok x →
      (runTrace srcs).1 = srcs.map (fun p => Event.fetch p.1) := by
  induction srcs with
  | nil =>
    intro x _
    rfl
  | cons s rest ih =>
    obtain ⟨url, r⟩ := s
    intro x hok
    cases hps : processSource url r with
    | error e =>
      rw [show runTrace ((url, r) :: rest) = ([Event.fetch url], Except.error e)
        from by simp [runTrace, hps]] at hok
      simp at hok
    | ok p =>
      obtain ⟨blk, n⟩ := p
      rcases hrt : runTrace rest with ⟨evs, res⟩
      have hstep : runTrace ((url, r) :: rest)
          = (Event.fetch url :: evs, res.map (fun q => (blk ++ q.1, n + q.2))) := by
        simp [runTrace, hps, hrt]
      rw [hstep] at hok ⊢
      cases res with
      | error e => simp [Except.map] at hok
      | ok y =>
        have hevs : evs = rest.map (fun p => Event.fetch p.1) := by
          have h := ih y (by rw [hrt])
          rwa [hrt] at h
        simp [hevs]

/-- C10 (implicit): the report is accumulated in memory and the output file
is written exactly once, after all URLs — a completed run's trace is all
its fetches followed by the single write and the console line, and an
aborted run's trace contains no write at all, leaving any pre-existing
output file unchanged. -/
theorem singleWrite_at_end (srcs : List (String × Except String Page)) (t : String) :
    ((mainTrace srcs t).2 = Except.ok () →
      ∃ (c : String) (n : Nat), (mainTrace srcs t).1
        = srcs.map (fun p => Event.fetch p.1)
          ++ [Event.writeFile OUTFILE c,
              Event.printLine
                ("Done. Wrote " ++ toString n ++ " entry lines to " ++ OUTFILE)])
    ∧ (∀ e, (mainTrace srcs t).2 = Except.error e →
        (mainTrace srcs t).1.filter isWriteEvent = [])
    ∧ ((mainTrace srcs t).1.filter isWriteEvent).length ≤ 1 := by
  rcases hrt : runTrace srcs with ⟨evs, res⟩
  have hf : evs.filter isWriteEvent = [] := by
    have h := runTrace_no_writes srcs
    rwa [hrt] at h
  cases res with
  | error e =>
    have hmt : mainTrace srcs t = (evs, Except.error e) := by simp [mainTrace, hrt]
    rw [hmt]
    refine ⟨?_, ?_, ?_⟩
    · intro h
      simp at h
    · intro e' _
      exact hf
    · simp [hf]
  | ok p =>
    obtain ⟨body, n⟩ := p
    have hmt : mainTrace srcs t
        = (evs ++ [Event.writeFile OUTFILE (fileContent (reportHeader t ++ body)),
            Event.printLine
              ("Done. Wrote " ++ toString n ++ " entry lines to " ++ OUTFILE)],
           Except.ok ()) := by simp [mainTrace, hrt]
    have hevs : evs = srcs.map (fun p => Event.fetch p.1) := by
      have h := runTrace_events_of_ok srcs (body, n) (by rw [hrt])
      rwa [hrt] at h
    rw [hmt]
    refine ⟨?_, ?_, ?_⟩
    · intro _
      exact ⟨fileContent (reportHeader t ++ body), n, by rw [hevs]⟩
    · intro e' he'
      simp at he'
    · simp [List.filter_append, hf, isWriteEvent]

theorem singleWrite_at_end_witness :
    (mainTrace [("u", Except.error "x")] "T").2 = Except.ok ()
    ∧ (∃ (c : String) (n : Nat), (mainTrace [("u", Except.error "x")] "T").1
        = [("u", (Except.error "x" : Except String Page))].map
            (fun p => Event.fetch p.1)
          ++ [Event.writeFile OUTFILE c,
              Event.printLine
                ("Done. Wrote " ++ toString n ++ " entry lines to " ++ OUTFILE)]) :=
  ⟨rfl, (singleWrite_at_end [("u", Except.error "x")] "T").1 rfl⟩

/-! ### Properties of whitespace collapsing and stripping (C5) -/

theorem collapseRunsAux_head_not (p : Char → Bool) (r : Char) :
    ∀ l : List Char, ∀ c, (collapseRunsAux p r true l).head? = some c → p c = false := by
  intro l
  induction l with
  | nil =>
    intro c hc
    simp [collapseRunsAux] at hc
  | cons a as ih =>
    intro c hc
    by_cases hpa : p a
    · rw [show collapseRunsAux p r true (a :: as) = collapseRunsAux p r true as from by
        simp [collapseRunsAux, hpa]] at hc
      exact ih c hc
    · rw [show collapseRunsAux p r true (a :: as) = a :: collapseRunsAux p r false as from by
        simp [collapseRunsAux, hpa]] at hc
      simp only [List.head?_cons, Option.some.injEq] at hc
      subst hc
      simpa using hpa

theorem collapseRunsAux_chain (p : Char → Bool) (r : Char) :
    ∀ (l : List Char) (b : Bool),
      List.Chain' (fun a c => ¬(p a = true ∧ p c = true)) (collapseRunsAux p r b l) := by
  intro l
  induction l with
  | nil =>
    intro b
    simp [collapseRunsAux]
  | cons a as ih =>
    intro b
    by_cases hpa : p a
    · cases b with
      | true =>
        rw [show collapseRunsAux p r true (a :: as) = collapseRunsAux p r true as from by
          simp [collapseRunsAux, hpa]]
        exact ih true
      | false =>
        rw [show collapseRunsAux p r false (a :: as)
            = r :: collapseRunsAux p r true as from by simp [collapseRunsAux, hpa]]
        rw [List.chain'_cons']
        refine ⟨?_, ih true⟩
        intro y hy
        have hny := collapseRunsAux_head_not p r as y hy
        simp [hny]
    · rw [show collapseRunsAux p r b (a :: as) = a :: collapseRunsAux p r false as from by
        simp [collapseRunsAux, hpa]]
      rw [List.chain'_cons']
      refine ⟨?_, ih false⟩
      intro y hy
      have hpa' : p a = false := by simpa using hpa
      simp [hpa']

theorem pyStrip_isInfix (p : Char → Bool) (l : List Char) : pyStrip p l <:+: l := by
  obtain ⟨t1, ht1⟩ := List.rdropWhile_prefix p (List.dropWhile p l)
  obtain ⟨s1, hs1⟩ := List.dropWhile_suffix (l := l) p
  have ht1' : pyStrip p l ++ t1 = List.dropWhile p l := ht1
  exact ⟨s1, t1, by rw [List.append_assoc, ht1', hs1]⟩

theorem head?_rdropWhile (p : Char → Bool) (x : List Char) :
    ∀ c, (List.rdropWhile p x).head? = some c → x.head? = some c := by
  intro c hc
  obtain ⟨t, ht⟩ := List.rdropWhile_prefix p x
  rw [← ht, List.head?_append, hc]
  rfl

theorem pyStrip_head_not (p : Char → Bool) (l : List Char) :
    ∀ c, (pyStrip p l).head? = some c → p c = false := by
  intro c hc
  have h1 : (List.dropWhile p l).head? = some c := head?_rdropWhile p _ c hc
  have h2 := List.head?_dropWhile_not p l
  rw [h1] at h2
  exact h2

theorem pyStrip_getLast_not (p : Char → Bool) (l : List Char) :
    ∀ c, (pyStrip p l).getLast? = some c → p c = false := by
  intro c hc
  have hne : pyStrip p l ≠ [] := by
    intro hnil
    rw [hnil] at hc
    simp at hc
  have hg := List.getLast?_eq_getLast (pyStrip p l) hne
  rw [hc] at hg
  injection hg with hcg
  have hlast' : ¬p ((pyStrip p l).getLast hne) = true :=
    List.rdropWhile_last_not p (List.dropWhile p l) hne
  rw [← hcg] at hlast'
  simpa using hlast'

theorem cleanL_chain (l : List Char) :
    List.Chain' (fun a c => ¬(isPySpace a = true ∧ isPySpace c = true)) (cleanL l) :=
  List.Chain'.infix (collapseRunsAux_chain isPySpace ' ' l false)
    (pyStrip_isInfix isPySpace (collapseRuns isPySpace ' ' l))

/-- C5: every line emitted by the normaliser is non-empty, contains no two
adjacent whitespace characters and no leading or trailing whitespace, and
the emitted lines are an order-preserving sublist of the cleaned split
segments (document order). -/
theorem normalizer_output_clean (text : List Char) (ln : List Char)
    (h : ln ∈ normalizeL text) :
    (ln ≠ []
      ∧ List.Chain' (fun a c => ¬(isPySpace a = true ∧ isPySpace c = true)) ln
      ∧ (∀ c, ln.head? = some c → isPySpace c = false)
      ∧ (∀ c, ln.getLast? = some c → isPySpace c = false))
    ∧ List.Sublist (normalizeL text) ((splitOnNL text).map cleanL) := by
  constructor
  · have hmem := List.mem_filter.mp
      (show ln ∈ ((splitOnNL text).map cleanL).filter (fun l => !l.isEmpty) from h)
    obtain ⟨x, _, rfl⟩ := List.mem_map.mp hmem.1
    refine ⟨?_, cleanL_chain x,
      fun c hc => pyStrip_head_not isPySpace (collapseRuns isPySpace ' ' x) c hc,
      fun c hc => pyStrip_getLast_not isPySpace (collapseRuns isPySpace ' ' x) c hc⟩
    intro hnil
    rw [hnil] at hmem
    simp at hmem
  · exact List.filter_sublist _

theorem normalizer_output_clean_witness :
    ("ab cd".data ∈ normalizeL "ab cd".data)
    ∧ (("ab cd".data ≠ []
        ∧ List.Chain' (fun a c => ¬(isPySpace a = true ∧ isPySpace c = true)) "ab cd".data
        ∧ (∀ c, "ab cd".data.head? = some c → isPySpace c = false)
        ∧ (∀ c, "ab cd".data.getLast? = some c → isPySpace c = false))
      ∧ List.Sublist (normalizeL "ab cd".data) ((splitOnNL "ab cd".data).map cleanL)) :=
  ⟨by decide, normalizer_output_clean "ab cd".data "ab cd".data (by decide)⟩

/-! ### Link association (C6) -/

theorem startsWithL_iff (p : List Char) : ∀ l, startsWithL p l = true ↔ p <+: l := by
  induction p with
  | nil =>
    intro l
    simp [startsWithL]
  | cons a as ih =>
    intro l
    cases l with
    | nil => simp [startsWithL]
    | cons b bs =>
      show (decide (a = b) && startsWithL as bs) = true ↔ _
      simp [ih bs, List.cons_prefix_cons]

theorem containsL_iff (t : List Char) : ∀ hay, containsL t hay = true ↔ t <:+: hay := by
  intro hay
  induction hay with
  | nil => simp [containsL, List.isEmpty_iff]
  | cons c cs ih =>
    show (startsWithL t (c :: cs) || containsL t cs) = true ↔ _
    simp [startsWithL_iff, ih, List.infix_cons_iff]

theorem find?_first {α : Type} (q : α → Bool) (w : α) (post : List α) :
    ∀ pre : List α, (∀ x ∈ pre, q x = false) → q w = true →
      List.find? q (pre ++ w :: post) = some w := by
  intro pre
  induction pre with
  | nil =>
    intro _ hw
    simpa using List.find?_cons_of_pos post hw
  | cons a pre' ih =>
    intro hpre hw
    have ha : q a = false := hpre a (by simp)
    rw [List.cons_append, List.find?_cons_of_neg _ (by simp [ha])]
    exact ih (fun x hx => hpre x (by simp [hx])) hw

/-- C6: `wikipedia_link` is the first link, in collection order, whose
lowercase form contains the token derived from the name guess (lowercase,
non-alphanumeric runs collapsed to one underscore, outer underscores
stripped); it is empty when the token is empty or no link contains the
token.  "Contains" is genuine substring containment, and the concrete
conjuncts exercise the token derivation and both outcomes. -/
theorem wikiGuess_spec (name : List Char) (links : List (List Char)) :
    (tokenOf name = [] → wikiGuess name links = [])
    ∧ ((∀ w ∈ links,
          (!(tokenOf name).isEmpty
            && containsL (tokenOf name) (w.map Char.toLower)) = false) →
        wikiGuess name links = [])
    ∧ (∀ pre w post, links = pre ++ w :: post →
        (∀ x ∈ pre,
          (!(tokenOf name).isEmpty
            && containsL (tokenOf name) (x.map Char.toLower)) = false) →
        (!(tokenOf name).isEmpty
          && containsL (tokenOf name) (w.map Char.toLower)) = true →
        wikiGuess name links = w)
    ∧ (∀ t hay, containsL t hay = true ↔ t <:+: hay)
    ∧ tokenOf "Jane Q. Public".data = "jane_q_public".data
    ∧ wikiGuess "Jane Q. Public".data
        ["https://en.wikipedia.org/wiki/Jane_Q_Public".data]
        = "https://en.wikipedia.org/wiki/Jane_Q_Public".data
    ∧ wikiGuess "Zzz Nobody".data
        ["https://en.wikipedia.org/wiki/Jane_Q_Public".data] = [] := by
  have h2 : (∀ w ∈ links,
      (!(tokenOf name).isEmpty
        && containsL (tokenOf name) (w.map Char.toLower)) = false) →
      wikiGuess name links = [] := by
    intro hall
    simp only [wikiGuess]
    rw [List.find?_eq_none.mpr (by intro x hx; simp [hall x hx])]
  refine ⟨?_, h2, ?_, fun t hay => containsL_iff t hay, by decide, by decide, by decide⟩
  · intro htok
    apply h2
    intro w _
    simp [htok]
  · intro pre w post hlk hpre hw
    subst hlk
    simp only [wikiGuess]
    rw [find?_first _ w post pre hpre hw]

theorem wikiGuess_spec_witness :
    tokenOf ("..." : String).data = []
    ∧ wikiGuess ("..." : String).data ["https://en.wikipedia.org/wiki/X".data] = [] :=
  ⟨by decide, (wikiGuess_spec ("..." : String).data
      ["https://en.wikipedia.org/wiki/X".data]).1 (by decide)⟩

end SeeingStars
